import Mathlib

/-!
# goreq: the response wrapper of `resp.go`

A shallow embedding of `Response` and its methods (`Txt`, `HTML`, `XML`, `JSON`,
`DecodeAndParse`, `IsHTML`, `IsJSON`, `BindJSON`, `BindXML`, `encodeBytes`).

* Go strings and `[]byte` are byte sequences; `string(b)` copies the bytes.
* The libraries the file calls (chardet, x/net/html/charset, goquery, xmlpath, gjson,
  encoding/json, encoding/xml, the Unicode part of `strings.ToLower`) are fields of `Env`.
* Every library call is recorded in a trace of `Event`s, so that "is not consulted"
  is a statement about the trace.
* A nil-pointer dereference (`s.Header` on a nil embedded `*http.Response`,
  `s.Req.RespEncode` on a nil `*Request`) is the outcome `none`.
-/

set_option linter.dupNamespace false

namespace Greq

/-! ## Data model -/

/-- One byte (values 0..255; no arithmetic in `resp.go` can overflow it). -/
abbrev Byte := Nat

/-- Go `[]byte`; the nil slice and the empty slice are both `[]`. -/
abbrev Bytes := List Byte

/-- Go `string`: an immutable byte sequence. -/
abbrev GoString := List Byte

/-- An ASCII string literal of the source as a Go string. -/
def str (s : String) : GoString := s.toList.map Char.toNat

/-- Go `error` value (non-nil). -/
structure Error where
  msg : String
deriving DecidableEq, Repr

/-- Go `http.Header`, a `map[string][]string`. -/
abbrev Header := List (GoString × List GoString)

/-- Go `http.Header.Get` for a key that is already canonical (as "Content-Type" is):
the first value stored under the key, or "" when there is none. -/
def Header.Get (h : Header) (key : GoString) : GoString :=
  match h.lookup key with
  | some (v :: _) => v
  | _ => []

/-- The part of `*http.Response` that `resp.go` reads. -/
structure HttpResponse where
  Header : Header
deriving DecidableEq, Repr

/-- The part of `*Request` that `resp.go` reads. -/
structure Request where
  RespEncode : GoString
deriving DecidableEq, Repr

/-- The struct `Response` (resp.go:18-28). The two pointer fields may be nil. -/
structure Response where
  Response : Option HttpResponse
  Body : Bytes
  NoDecodeBody : Bytes
  Text : GoString
  Req : Option Request
  Err : Option Error
deriving DecidableEq, Repr

/-! ## Library functions -/

/-- Go `strings.Contains(s, substr)`: `substr` occurs in `s` as a contiguous run of bytes. -/
def Contains : GoString → GoString → Bool
  | [], substr => substr.isEmpty
  | c :: cs, substr => substr.isPrefixOf (c :: cs) || Contains cs substr

/-- The ASCII path of `strings.ToLower`: bytes 'A'..'Z' are shifted by 'a' - 'A'. -/
def asciiLower (s : GoString) : GoString :=
  s.map (fun c => if 65 ≤ c ∧ c ≤ 90 then c + 32 else c)

/-- Go `strings.ToLower`: a string of bytes below `utf8.RuneSelf` takes the ASCII path,
any other string goes through `strings.Map(unicode.ToLower, s)`, given as `unicodeLower`. -/
def ToLower (unicodeLower : GoString → GoString) (s : GoString) : GoString :=
  if s.all (fun c => decide (c < 128)) then asciiLower s else unicodeLower s

/-- The external libraries called from `resp.go`. -/
structure Env where
  /-- Type `*goquery.Document`. -/
  Document : Type
  /-- Type `*xmlpath.Node`. -/
  Node : Type
  /-- Type `gjson.Result`. -/
  Result : Type
  /-- The values a bind target (`i interface{}`) can hold. -/
  Target : Type
  /-- Go `strings.Map(unicode.ToLower, s)`, reached by `strings.ToLower` on non-ASCII input. -/
  unicodeLower : GoString → GoString
  /-- Go `chardet.NewTextDetector().DetectBest(b)`: the `Charset` of the best result, or the error. -/
  DetectBest : Bytes → Except Error GoString
  /-- Go `charset.NewReader(bytes.NewReader(b), contentType)`: its error, if any. -/
  NewReader : Bytes → GoString → Option Error
  /-- Go `ioutil.ReadAll` on the reader that `charset.NewReader` built from `b` and `contentType`. -/
  ReadAll : Bytes → GoString → Bytes × Option Error
  /-- Go `goquery.NewDocumentFromReader(bytes.NewReader(b))`. -/
  NewDocumentFromReader : Bytes → Option Document × Option Error
  /-- Go `xmlpath.Parse(bytes.NewReader(b))`. -/
  xmlpathParse : Bytes → Option Node × Option Error
  /-- Go `gjson.Parse(text)`. -/
  gjsonParse : GoString → Result
  /-- Go `json.Unmarshal(b, i)`: the target after the call and the error. -/
  jsonUnmarshal : Bytes → Target → Target × Option Error
  /-- Go `xml.Unmarshal(b, i)`: the target after the call and the error. -/
  xmlUnmarshal : Bytes → Target → Target × Option Error

/-- A call into one of the libraries, with the bytes handed over. -/
inductive Event where
  | DetectBest (b : Bytes)
  | NewReader (b : Bytes) (contentType : GoString)
  | ReadAll (b : Bytes) (contentType : GoString)
  | NewDocumentFromReader (b : Bytes)
  | xmlpathParse (b : Bytes)
  | gjsonParse (text : GoString)
  | jsonUnmarshal (b : Bytes)
  | xmlUnmarshal (b : Bytes)
deriving DecidableEq, Repr

/-- The event is a call of the heuristic charset detector. -/
def Event.isDetector : Event → Bool
  | .DetectBest _ => true
  | _ => false

/-- The event is a call of the charset transcoder. -/
def Event.isTranscoder : Event → Bool
  | .NewReader _ _ => true
  | .ReadAll _ _ => true
  | _ => false

/-- What a method that can write the receiver leaves behind: the receiver after the
call, the library calls made (in order) and the returned value. -/
structure Ret (α : Type) where
  s : Response
  trace : List Event
  val : α

/-! ## Methods of `Response` -/

/-- The method `Txt` (resp.go:34-36). -/
def Txt (s : Response) : GoString × Option Error :=
  (s.Text, s.Err)

/-- The method `HTML` (resp.go:38-43); it assigns no field. -/
def HTML (env : Env) (s : Response) : List Event × (Option env.Document × Option Error) :=
  if s.Err ≠ none then
    ([], (none, s.Err))
  else
    ([.NewDocumentFromReader s.Body], env.NewDocumentFromReader s.Body)

/-- The method `XML` (resp.go:45-50); it assigns no field. -/
def XML (env : Env) (s : Response) : List Event × (Option env.Node × Option Error) :=
  if s.Err ≠ none then
    ([], (none, s.Err))
  else
    ([.xmlpathParse s.Body], env.xmlpathParse s.Body)

/-- The method `JSON` (resp.go:52-54); it assigns no field. -/
def JSON (env : Env) (s : Response) : List Event × (env.Result × Option Error) :=
  ([.gjsonParse s.Text], (env.gjsonParse s.Text, s.Err))

/-- The function `encodeBytes` (resp.go:159-165). -/
def encodeBytes (env : Env) (b : Bytes) (contentType : GoString) :
    List Event × (Bytes × Option Error) :=
  match env.NewReader b contentType with
  | some err => ([.NewReader b contentType], ([], some err))
  | none => ([.NewReader b contentType, .ReadAll b contentType], env.ReadAll b contentType)

/-- Lines 72-82 of `DecodeAndParse`: the content-type string after the charset has been
resolved, or the detector's error; `none` is the nil dereference of `s.Req`. -/
def resolveCharset (env : Env) (s : Response) (contentType : GoString) :
    Option (List Event × Except Error GoString) :=
  if !Contains contentType (str "charset") then
    match s.Req with
    | none => none
    | some req =>
      if req.RespEncode ≠ [] then
        some ([], .ok (contentType ++ str "; charset=" ++ req.RespEncode))
      else
        match env.DetectBest s.Body with
        | .error err => some ([.DetectBest s.Body], .error err)
        | .ok charset => some ([.DetectBest s.Body], .ok (contentType ++ str "; charset=" ++ charset))
  else
    some ([], .ok contentType)

/-- Lines 83-92 of `DecodeAndParse`: the UTF-8 test and the transcoding. -/
def decodeBody (env : Env) (s : Response) (contentType : GoString) : Ret (Option Error) :=
  if Contains contentType (str "utf-8") || Contains contentType (str "utf8") then
    ⟨{ s with Text := s.Body }, [], none⟩
  else
    match encodeBytes env s.Body contentType with
    | (tr, (_, some err)) => ⟨s, tr, some err⟩
    | (tr, (tmpBody, none)) => ⟨{ s with Body := tmpBody, Text := tmpBody }, tr, none⟩

/-- The method `DecodeAndParse` (resp.go:61-95); `none` is a nil-pointer panic. -/
def DecodeAndParse (env : Env) (s : Response) : Option (Ret (Option Error)) :=
  if s.Err ≠ none then
    some ⟨s, [], s.Err⟩
  else if s.Body.length = 0 then
    some ⟨s, [], none⟩
  else
    let s := { s with NoDecodeBody := s.Body }
    match s.Response with
    | none => none
    | some h =>
      let contentType := ToLower env.unicodeLower (h.Header.Get (str "Content-Type"))
      if Contains contentType (str "text/") || Contains contentType (str "/json") then
        match resolveCharset env s contentType with
        | none => none
        | some (tr, .error err) => some ⟨s, tr, some err⟩
        | some (tr, .ok contentType) =>
          let r := decodeBody env s contentType
          some ⟨r.s, tr ++ r.trace, r.val⟩
      else
        some ⟨s, [], none⟩

/-- The method `IsHTML` (resp.go:97-100); `none` is a nil-pointer panic. -/
def IsHTML (env : Env) (s : Response) : Option Bool :=
  match s.Response with
  | none => none
  | some h =>
    let contentType := ToLower env.unicodeLower (h.Header.Get (str "Content-Type"))
    some (Contains contentType (str "/html"))

/-- The method `IsJSON` (resp.go:102-105); `none` is a nil-pointer panic. -/
def IsJSON (env : Env) (s : Response) : Option Bool :=
  match s.Response with
  | none => none
  | some h =>
    let contentType := ToLower env.unicodeLower (h.Header.Get (str "Content-Type"))
    some (Contains contentType (str "/json"))

/-- The method `BindJSON` (resp.go:107-112): the target after the call and the error. -/
def BindJSON (env : Env) (s : Response) (i : env.Target) :
    List Event × (env.Target × Option Error) :=
  if s.Err ≠ none then
    ([], (i, s.Err))
  else
    ([.jsonUnmarshal s.Body], env.jsonUnmarshal s.Body i)

/-- The method `BindXML` (resp.go:114-119): the target after the call and the error. -/
def BindXML (env : Env) (s : Response) (i : env.Target) :
    List Event × (env.Target × Option Error) :=
  if s.Err ≠ none then
    ([], (i, s.Err))
  else
    ([.xmlUnmarshal s.Body], env.xmlUnmarshal s.Body i)

/-! ## Sample inputs -/

/-- A transcoder for the samples: under a content type that names iso-8859-1 each byte
from 0x80 up becomes the two-byte UTF-8 form of the code point of the same number (as the
library does for 0xA0..0xFF); any other input is passed through unchanged. -/
def sampleReadAll (b : Bytes) (contentType : GoString) : Bytes × Option Error :=
  if Contains contentType (str "iso-8859-1") then
    (b.flatMap (fun c => if c < 128 then [c] else [192 + c / 64, 128 + c % 64]), none)
  else
    (b, none)

/-- The error `chardet.NotDetectedError`. -/
def NotDetectedError : Error := ⟨"Charset not detected."⟩

/-- A detector for the samples: it recognises nothing in the single byte 0x80 and reports
"UTF-8" for any other input (as chardet does for ASCII and for UTF-8 text). -/
def sampleDetectBest (b : Bytes) : Except Error GoString :=
  if b = [128] then .error NotDetectedError else .ok (str "UTF-8")

/-- A library environment for the samples: documents, nodes, JSON values and bind targets
are the bytes they were built from. -/
def sampleEnv : Env where
  Document := Bytes
  Node := Bytes
  Result := GoString
  Target := Bytes
  unicodeLower := fun s => s
  DetectBest := sampleDetectBest
  NewReader := fun _ _ => none
  ReadAll := sampleReadAll
  NewDocumentFromReader := fun b => (some b, none)
  xmlpathParse := fun b => (some b, none)
  gjsonParse := fun t => t
  jsonUnmarshal := fun b _ => (b, none)
  xmlUnmarshal := fun b _ => (b, none)

/-- A response as the transport leaves it: the given Content-Type, body and override. -/
def mkResponse (contentType : GoString) (body : Bytes) (respEncode : GoString) : Response :=
  { Response := some ⟨[(str "Content-Type", [contentType])]⟩
    Body := body
    NoDecodeBody := []
    Text := []
    Req := some ⟨respEncode⟩
    Err := none }

/-- A JSON string holding U+00E9 in ISO-8859-1 (bytes 22 E9 22), declared as such by the
header, with no override. -/
def latin1Response : Response :=
  mkResponse (str "application/json; charset=iso-8859-1") [34, 233, 34] []

/-- The response `latin1Response` after one successful `DecodeAndParse` under `sampleEnv`:
Body and Text hold the UTF-8 form 22 C3 A9 22, NoDecodeBody the bytes as received. -/
def latin1Decoded : Response :=
  { latin1Response with
    Body := [34, 195, 169, 34], NoDecodeBody := [34, 233, 34], Text := [34, 195, 169, 34] }

/-! ## Abbreviations used in the statements -/

/-- The lower-cased Content-Type value that `DecodeAndParse`, `IsHTML` and `IsJSON` compute
from the headers (resp.go:69, 98, 103). -/
def lowerContentType (env : Env) (h : HttpResponse) : GoString :=
  ToLower env.unicodeLower (h.Header.Get (str "Content-Type"))

/-- The test of resp.go:70-71: the content type is textual. -/
def isTextual (contentType : GoString) : Bool :=
  Contains contentType (str "text/") || Contains contentType (str "/json")

/-- The test of resp.go:72: the content type names a charset. -/
def namesCharset (contentType : GoString) : Bool :=
  Contains contentType (str "charset")

/-- The detector was called somewhere in the trace. -/
def usesDetector (tr : List Event) : Bool := tr.any Event.isDetector

/-- The transcoder was called somewhere in the trace. -/
def usesTranscoder (tr : List Event) : Bool := tr.any Event.isTranscoder

/-- What a caller observes of a run of `DecodeAndParse`: return value, Body and Text. -/
def observe (r : Ret (Option Error)) : Option Error × Bytes × GoString :=
  (r.val, r.s.Body, r.s.Text)

/-! ## Helper lemmas -/

theorem decodeBody_eq_of_utf8 (env : Env) (s : Response) (ct : GoString)
    (h : (Contains ct (str "utf-8") || Contains ct (str "utf8")) = true) :
    decodeBody env s ct = ⟨{ s with Text := s.Body }, [], none⟩ := by
  simp [decodeBody, h]

theorem decodeBody_trace_no_detector (env : Env) (s : Response) (ct : GoString) :
    usesDetector (decodeBody env s ct).trace = false := by
  unfold decodeBody encodeBytes usesDetector
  split
  · rfl
  · cases env.NewReader s.Body ct with
    | some err => simp [Event.isDetector]
    | none =>
      rcases hr : env.ReadAll s.Body ct with ⟨b, _ | e⟩ <;> simp [Event.isDetector]

theorem decodeBody_trace_mem (env : Env) (s : Response) (ct : GoString) (e : Event)
    (he : e ∈ (decodeBody env s ct).trace) :
    e = .NewReader s.Body ct ∨ e = .ReadAll s.Body ct := by
  unfold decodeBody encodeBytes at he
  split at he
  · simp at he
  · cases hn : env.NewReader s.Body ct with
    | some err => simp [hn] at he; exact Or.inl he
    | none =>
      rcases hr : env.ReadAll s.Body ct with ⟨b, _ | e⟩ <;> simp [hn, hr] at he <;> exact he

/-! ## Claims -/

/-- C4 (empty body). With an empty Body, no stored error and an empty Text,
`DecodeAndParse` returns nil, makes no library call and leaves every field as it was,
whatever the headers (even a nil `*http.Response`) and `Req` are; `Txt` afterwards
returns ("", nil). -/
theorem empty_body_untouched (env : Env) (s : Response)
    (hBody : s.Body = []) (hErr : s.Err = none) (hText : s.Text = []) :
    DecodeAndParse env s = some ⟨s, [], none⟩ ∧
    ∀ r, DecodeAndParse env s = some r →
      r.val = none ∧ r.trace = [] ∧ r.s = s ∧ Txt r.s = ([], none) := by
  have h : DecodeAndParse env s = some ⟨s, [], none⟩ := by
    simp [DecodeAndParse, hBody, hErr]
  refine ⟨h, ?_⟩
  intro r hr
  rw [h] at hr
  cases hr
  simp [Txt, hErr, hText]

/-- Sample for C4: an empty body under a text/html header and an override. -/
theorem empty_body_untouched_witness :
    (mkResponse (str "text/html") [] (str "gbk")).Body = [] ∧
    DecodeAndParse sampleEnv (mkResponse (str "text/html") [] (str "gbk"))
      = some ⟨mkResponse (str "text/html") [] (str "gbk"), [], none⟩ :=
  ⟨rfl, (empty_body_untouched sampleEnv (mkResponse (str "text/html") [] (str "gbk"))
    rfl rfl rfl).1⟩

/-- C6 (transport-error poison). With a stored error `e`, each of `DecodeAndParse`,
`HTML`, `XML`, `BindJSON` and `BindXML` returns `e` (HTML and XML with a nil value),
makes no library call, and leaves the receiver and the bind target as they were. -/
theorem stored_error_poisons (env : Env) (s : Response) (e : Error) (i : env.Target)
    (hErr : s.Err = some e) :
    DecodeAndParse env s = some ⟨s, [], some e⟩ ∧
    HTML env s = ([], (none, some e)) ∧
    XML env s = ([], (none, some e)) ∧
    BindJSON env s i = ([], (i, some e)) ∧
    BindXML env s i = ([], (i, some e)) := by
  simp [DecodeAndParse, HTML, XML, BindJSON, BindXML, hErr]

/-- Sample for C6: a response carrying a transport error leaves the bind target as it was. -/
theorem stored_error_poisons_witness :
    BindJSON sampleEnv
        { mkResponse (str "application/json") (str "[1]") [] with Err := some ⟨"dial tcp: timeout"⟩ }
        (str "old")
      = ([], (str "old", some ⟨"dial tcp: timeout"⟩)) :=
  (stored_error_poisons sampleEnv
    { mkResponse (str "application/json") (str "[1]") [] with Err := some ⟨"dial tcp: timeout"⟩ }
    ⟨"dial tcp: timeout"⟩ (str "old") rfl).2.2.2.1

/-- The run of `DecodeAndParse` on a response that is not textual: only NoDecodeBody is set. -/
theorem DecodeAndParse_of_non_textual (env : Env) (s : Response) (h : HttpResponse)
    (hErr : s.Err = none) (hBody : s.Body ≠ []) (hResp : s.Response = some h)
    (hNot : isTextual (lowerContentType env h) = false) :
    DecodeAndParse env s = some ⟨{ s with NoDecodeBody := s.Body }, [], none⟩ := by
  simp only [isTextual, lowerContentType] at hNot
  simp [DecodeAndParse, hErr, hBody, hResp, hNot]

/-- A response without Content-Type header is not textual. -/
theorem isTextual_of_absent_header (env : Env) (h : HttpResponse)
    (hAbsent : h.Header.lookup (str "Content-Type") = none) :
    isTextual (lowerContentType env h) = false := by
  have hg : h.Header.Get (str "Content-Type") = [] := by
    simp [Header.Get, hAbsent]
  have hl : ToLower env.unicodeLower [] = [] := by simp [ToLower, asciiLower]
  rw [lowerContentType, hg, hl]
  decide

/-- C8, counterexample. The header application/octet-stream; name="a/json" denotes the
type application/octet-stream (what stands before the first ';'), neither text/* nor
*/json; yet "/json" occurs in its name parameter, so lines 70-71 take the response for
textual: the detector and the transcoder are called and Text is set. -/
theorem octet_stream_with_json_name_is_decoded :
    (str "application/octet-stream; name=\"a/json\"").takeWhile (fun c => c != 59)
      = str "application/octet-stream" ∧
    (DecodeAndParse sampleEnv
        (mkResponse (str "application/octet-stream; name=\"a/json\"") (str "hi") [])).map
        (fun r => (r.val, r.trace, r.s.Text))
      = some (none,
          [.DetectBest (str "hi"),
           .NewReader (str "hi") (str "application/octet-stream; name=\"a/json\"; charset=UTF-8"),
           .ReadAll (str "hi") (str "application/octet-stream; name=\"a/json\"; charset=UTF-8")],
          str "hi") :=
  ⟨by decide, by decide⟩

/-- C8, amended (non-textual payloads). With no stored error, a non-empty Body and a lower-cased
Content-Type that contains neither "text/" nor "/json", `DecodeAndParse` returns nil,
makes no library call, and leaves Body and Text as they were (Text stays empty if it
was); only NoDecodeBody is set, to Body. -/
theorem non_textual_left_alone (env : Env) (s : Response) (h : HttpResponse)
    (hErr : s.Err = none) (hBody : s.Body ≠ []) (hResp : s.Response = some h)
    (hNot : isTextual (lowerContentType env h) = false) :
    DecodeAndParse env s = some ⟨{ s with NoDecodeBody := s.Body }, [], none⟩ ∧
    ∀ r, DecodeAndParse env s = some r →
      r.val = none ∧ usesDetector r.trace = false ∧ usesTranscoder r.trace = false ∧
      r.s.Body = s.Body ∧ r.s.Text = s.Text ∧ (s.Text = [] → r.s.Text = []) := by
  have h1 := DecodeAndParse_of_non_textual env s h hErr hBody hResp hNot
  refine ⟨h1, ?_⟩
  intro r hr
  rw [h1] at hr
  cases hr
  simp [usesDetector, usesTranscoder]

/-- Sample for C8: a PNG signature under Content-Type image/png. -/
theorem non_textual_left_alone_witness :
    isTextual (lowerContentType sampleEnv ⟨[(str "Content-Type", [str "image/png"])]⟩) = false ∧
    DecodeAndParse sampleEnv (mkResponse (str "image/png") [137, 80, 78, 71] [])
      = some ⟨{ mkResponse (str "image/png") [137, 80, 78, 71] [] with
                NoDecodeBody := [137, 80, 78, 71] }, [], none⟩ :=
  ⟨by decide, (non_textual_left_alone sampleEnv (mkResponse (str "image/png") [137, 80, 78, 71] [])
    ⟨[(str "Content-Type", [str "image/png"])]⟩ rfl (by decide) rfl (by decide)).1⟩

/-- The run of `DecodeAndParse` on a textual response whose charset is named by
Content-Type: lines 83-92 applied to the lower-cased header value. -/
theorem DecodeAndParse_of_header_charset (env : Env) (s : Response) (h : HttpResponse)
    (hErr : s.Err = none) (hBody : s.Body ≠ []) (hResp : s.Response = some h)
    (hText : isTextual (lowerContentType env h) = true)
    (hCharset : namesCharset (lowerContentType env h) = true) :
    DecodeAndParse env s
      = some (decodeBody env { s with NoDecodeBody := s.Body } (lowerContentType env h)) := by
  simp only [isTextual, lowerContentType, namesCharset] at hText hCharset
  simp [DecodeAndParse, resolveCharset, lowerContentType, hErr, hBody, hResp, hText, hCharset]

/-- Lines 83-92 read and write of the receiver only Body and Text: Body, Text, trace and
value of the result do not depend on the other fields, nor on the detector. -/
theorem decodeBody_observe_congr (env : Env) (s s' : Response) (ct : GoString)
    (detect : Bytes → Except Error GoString) (hB : s'.Body = s.Body) (hT : s'.Text = s.Text) :
    observe (decodeBody { env with DetectBest := detect } s' ct) = observe (decodeBody env s ct) ∧
    (decodeBody { env with DetectBest := detect } s' ct).trace = (decodeBody env s ct).trace := by
  unfold decodeBody encodeBytes observe
  rw [hB]
  split
  · simp [hB]
  · cases hn : env.NewReader s.Body ct with
    | some err => simp [hB, hT]
    | none => rcases hr : env.ReadAll s.Body ct with ⟨b, _ | e⟩ <;> simp [hB, hT]

/-- C1 (header precedence). With no stored error, a non-empty Body and a textual
lower-cased Content-Type that names a charset, `DecodeAndParse` runs the UTF-8 test and
the transcoder on exactly the lower-cased header value; the detector is not called, the
only library calls possible are those of the transcoder on (Body, header value), and
the return value, Body and Text are the same for every other detector and every other
`Req` (override). -/
theorem header_charset_precedence (env : Env) (s : Response) (h : HttpResponse)
    (hErr : s.Err = none) (hBody : s.Body ≠ []) (hResp : s.Response = some h)
    (hText : isTextual (lowerContentType env h) = true)
    (hCharset : namesCharset (lowerContentType env h) = true) :
    DecodeAndParse env s
      = some (decodeBody env { s with NoDecodeBody := s.Body } (lowerContentType env h)) ∧
    (∀ r, DecodeAndParse env s = some r →
      usesDetector r.trace = false ∧
      ∀ e ∈ r.trace, e = .NewReader s.Body (lowerContentType env h) ∨
                     e = .ReadAll s.Body (lowerContentType env h)) ∧
    ∀ (detect : Bytes → Except Error GoString) (req : Option Request),
      (DecodeAndParse { env with DetectBest := detect } { s with Req := req }).map observe
        = (DecodeAndParse env s).map observe := by
  have h1 := DecodeAndParse_of_header_charset env s h hErr hBody hResp hText hCharset
  refine ⟨h1, ?_, ?_⟩
  · intro r hr
    rw [h1] at hr
    cases hr
    exact ⟨decodeBody_trace_no_detector _ _ _,
      fun e he => decodeBody_trace_mem env { s with NoDecodeBody := s.Body } _ e he⟩
  · intro detect req
    have h2 := DecodeAndParse_of_header_charset { env with DetectBest := detect }
      { s with Req := req } h hErr hBody hResp hText hCharset
    rw [h1, h2]
    simp only [Option.map_some']
    exact congrArg some (decodeBody_observe_congr env { s with NoDecodeBody := s.Body }
      { s with NoDecodeBody := s.Body, Req := req } (lowerContentType env h) detect rfl rfl).1

/-- Sample for C1: the header names UTF-8; an override "gbk" and a detector that recognises
nothing change nothing. -/
theorem header_charset_precedence_witness :
    namesCharset (lowerContentType sampleEnv
      ⟨[(str "Content-Type", [str "Text/HTML; Charset=UTF-8"])]⟩) = true ∧
    (DecodeAndParse { sampleEnv with DetectBest := fun _ => .error NotDetectedError }
        (mkResponse (str "Text/HTML; Charset=UTF-8") (str "hi") (str "gbk"))).map observe
      = (DecodeAndParse sampleEnv
        (mkResponse (str "Text/HTML; Charset=UTF-8") (str "hi") [])).map observe :=
  ⟨by decide, (header_charset_precedence sampleEnv
    (mkResponse (str "Text/HTML; Charset=UTF-8") (str "hi") [])
    ⟨[(str "Content-Type", [str "Text/HTML; Charset=UTF-8"])]⟩ rfl (by decide) rfl
    (by decide) (by decide)).2.2 (fun _ => .error NotDetectedError) (some ⟨str "gbk"⟩)⟩

/-- The run of `DecodeAndParse` on a textual response, in terms of lines 72-82 and 83-92. -/
theorem DecodeAndParse_of_textual (env : Env) (s : Response) (h : HttpResponse)
    (hErr : s.Err = none) (hBody : s.Body ≠ []) (hResp : s.Response = some h)
    (hText : isTextual (lowerContentType env h) = true) :
    DecodeAndParse env s =
      match resolveCharset env { s with NoDecodeBody := s.Body } (lowerContentType env h) with
      | none => none
      | some (tr, .error err) => some ⟨{ s with NoDecodeBody := s.Body }, tr, some err⟩
      | some (tr, .ok ct) =>
        some ⟨(decodeBody env { s with NoDecodeBody := s.Body } ct).s,
              tr ++ (decodeBody env { s with NoDecodeBody := s.Body } ct).trace,
              (decodeBody env { s with NoDecodeBody := s.Body } ct).val⟩ := by
  simp only [isTextual, lowerContentType] at hText
  simp [DecodeAndParse, lowerContentType, hErr, hBody, hResp, hText]

/-- Lines 72-82 either make no library call or call the detector once, on Body, and the
latter only when the content type names no charset and `RespEncode` is empty. -/
theorem resolveCharset_trace (env : Env) (s : Response) (ct : GoString) (tr : List Event)
    (x : Except Error GoString) (hr : resolveCharset env s ct = some (tr, x)) :
    tr = [] ∨ (tr = [.DetectBest s.Body] ∧ namesCharset ct = false ∧
      ∃ req, s.Req = some req ∧ req.RespEncode = []) := by
  unfold resolveCharset at hr
  by_cases hc : Contains ct (str "charset") = true
  · simp [hc] at hr
    exact Or.inl hr.1
  · cases hReq : s.Req with
    | none => simp [hc, hReq] at hr
    | some req =>
      by_cases hEnc : req.RespEncode = []
      · right
        cases hd : env.DetectBest s.Body with
        | error err =>
          simp [hc, hReq, hEnc, hd] at hr
          exact ⟨hr.1.symm, by simpa [namesCharset] using hc, req, rfl, hEnc⟩
        | ok cs =>
          simp [hc, hReq, hEnc, hd] at hr
          exact ⟨hr.1.symm, by simpa [namesCharset] using hc, req, rfl, hEnc⟩
      · simp [hc, hReq, hEnc] at hr
        exact Or.inl hr.1

/-- The detector is called by `DecodeAndParse` only for a response whose `Req` carries an
empty `RespEncode`. -/
theorem detector_only_without_override (env : Env) (s : Response) (r : Ret (Option Error))
    (hr : DecodeAndParse env s = some r) (hd : usesDetector r.trace = true) :
    ∃ req, s.Req = some req ∧ req.RespEncode = [] := by
  by_cases hErr : s.Err = none
  swap
  · simp [DecodeAndParse, hErr] at hr
    subst hr
    simp [usesDetector] at hd
  by_cases hBody : s.Body = []
  · simp [DecodeAndParse, hErr, hBody] at hr
    subst hr
    simp [usesDetector] at hd
  cases hResp : s.Response with
  | none => simp [DecodeAndParse, hErr, hBody, hResp] at hr
  | some h =>
    by_cases hText : isTextual (lowerContentType env h) = true
    swap
    · simp only [isTextual, lowerContentType] at hText
      simp [DecodeAndParse, hErr, hBody, hResp, hText] at hr
      subst hr
      simp [usesDetector] at hd
    rw [DecodeAndParse_of_textual env s h hErr hBody hResp hText] at hr
    rcases hrc : resolveCharset env { s with NoDecodeBody := s.Body } (lowerContentType env h)
      with _ | ⟨tr, err | ct⟩
    · simp [hrc] at hr
    · simp only [hrc] at hr
      cases hr
      rcases resolveCharset_trace _ _ _ _ _ hrc with h0 | ⟨_, _, hreq⟩
      · subst h0
        simp [usesDetector] at hd
      · exact hreq
    · simp only [hrc] at hr
      cases hr
      rcases resolveCharset_trace _ _ _ _ _ hrc with h0 | ⟨_, _, hreq⟩
      · subst h0
        have := decodeBody_trace_no_detector env { s with NoDecodeBody := s.Body } ct
        simp [this] at hd
      · exact hreq

/-- C2, counterexample. The header "text/html; charset=" names no charset (nothing
follows the "="), and the caller set the override "gbk"; yet the value contains the
word "charset", so line 72 skips the override: the string tested and handed to the
transcoder is the header value alone, not the header value followed by "; charset=gbk". -/
theorem override_ignored_on_empty_charset :
    (DecodeAndParse sampleEnv (mkResponse (str "text/html; charset=") (str "hi") (str "gbk"))).map
        (fun r => (r.val, r.trace))
      = some (none, [.NewReader (str "hi") (str "text/html; charset="),
          .ReadAll (str "hi") (str "text/html; charset=")]) ∧
    (DecodeAndParse sampleEnv (mkResponse (str "text/html; charset=") (str "hi") (str "gbk"))).map
        (fun r => r.trace)
      ≠ some [.NewReader (str "hi") (str "text/html; charset=; charset=gbk"),
          .ReadAll (str "hi") (str "text/html; charset=; charset=gbk")] :=
  ⟨by decide, by decide⟩

/-- C2, amended (caller override beats sniffing). With no stored error, a non-empty Body,
a textual lower-cased Content-Type that does not contain the word "charset" and a
non-empty `Req.RespEncode`, `DecodeAndParse` runs the UTF-8 test and the transcoder on the lower-cased header value
followed by "; charset=" and `Req.RespEncode`, and never calls the detector; and on any
response at all, a run that calls the detector had an empty `Req.RespEncode`. -/
theorem override_beats_sniffing (env : Env) (s : Response) (h : HttpResponse) (req : Request)
    (hErr : s.Err = none) (hBody : s.Body ≠ []) (hResp : s.Response = some h)
    (hReq : s.Req = some req)
    (hText : isTextual (lowerContentType env h) = true)
    (hCharset : namesCharset (lowerContentType env h) = false)
    (hEnc : req.RespEncode ≠ []) :
    DecodeAndParse env s
      = some (decodeBody env { s with NoDecodeBody := s.Body }
          (lowerContentType env h ++ str "; charset=" ++ req.RespEncode)) ∧
    (∀ r, DecodeAndParse env s = some r → usesDetector r.trace = false) ∧
    ∀ (s' : Response) (r' : Ret (Option Error)),
      DecodeAndParse env s' = some r' → usesDetector r'.trace = true →
      ∃ req', s'.Req = some req' ∧ req'.RespEncode = [] := by
  have h1 : DecodeAndParse env s
      = some (decodeBody env { s with NoDecodeBody := s.Body }
          (lowerContentType env h ++ str "; charset=" ++ req.RespEncode)) := by
    rw [DecodeAndParse_of_textual env s h hErr hBody hResp hText]
    simp only [namesCharset] at hCharset
    simp [resolveCharset, hCharset, hReq, hEnc]
  refine ⟨h1, ?_, fun s' r' hr' hd => detector_only_without_override env s' r' hr' hd⟩
  intro r hr
  rw [h1] at hr
  cases hr
  exact decodeBody_trace_no_detector _ _ _

/-- Sample for C2: application/json without charset, override "gbk". -/
theorem override_beats_sniffing_witness :
    namesCharset (lowerContentType sampleEnv
      ⟨[(str "Content-Type", [str "application/json"])]⟩) = false ∧
    DecodeAndParse sampleEnv
        (mkResponse (str "application/json") (str "[1]") (str "gbk"))
      = some (decodeBody sampleEnv
          { mkResponse (str "application/json") (str "[1]") (str "gbk") with
            NoDecodeBody := str "[1]" }
          (str "application/json; charset=gbk")) :=
  ⟨by decide, (override_beats_sniffing sampleEnv
    (mkResponse (str "application/json") (str "[1]") (str "gbk"))
    ⟨[(str "Content-Type", [str "application/json"])]⟩ ⟨str "gbk"⟩ rfl (by decide) rfl rfl
    (by decide) (by decide) (by decide)).1⟩

/-- Specification of `Contains`: the needle is an infix of the string. -/
theorem Contains_iff_isInfix (s p : GoString) : Contains s p = true ↔ p <:+: s := by
  induction s with
  | nil => simp [Contains, List.isEmpty_iff]
  | cons c cs ih =>
    rw [Contains, Bool.or_eq_true, ih, List.infix_cons_iff, List.isPrefixOf_iff_prefix]

/-- An infix of a mapped list is the image of an infix. -/
theorem isInfix_map_iff {α β : Type} (f : α → β) (p : List β) (s : List α) :
    p <:+: s.map f ↔ ∃ w, w <:+: s ∧ w.map f = p := by
  constructor
  · rintro ⟨a, b, hab⟩
    rw [eq_comm, List.map_eq_append_iff] at hab
    obtain ⟨l1, b', rfl, h1, rfl⟩ := hab
    rw [List.map_eq_append_iff] at h1
    obtain ⟨a', w, rfl, rfl, rfl⟩ := h1
    exact ⟨w, ⟨a', b', rfl⟩, rfl⟩
  · rintro ⟨w, hw, rfl⟩
    exact hw.map f

/-- On an ASCII string, `Contains (ToLower s) p` says that some run of bytes of `s`
is `p` once its letters A-Z are lower-cased. -/
theorem Contains_ToLower_ascii (u : GoString → GoString) (s p : GoString)
    (hs : s.all (fun c => decide (c < 128)) = true) :
    Contains (ToLower u s) p = true ↔ ∃ w, w <:+: s ∧ asciiLower w = p := by
  rw [Contains_iff_isInfix, ToLower, if_pos hs]
  exact isInfix_map_iff _ p s

/-- Lines 83-92 write only Body and Text. -/
theorem decodeBody_frame (env : Env) (s : Response) (ct : GoString) :
    (decodeBody env s ct).s.Response = s.Response ∧ (decodeBody env s ct).s.Req = s.Req ∧
    (decodeBody env s ct).s.Err = s.Err ∧
    (decodeBody env s ct).s.NoDecodeBody = s.NoDecodeBody := by
  unfold decodeBody
  split
  · simp
  · split <;> simp

/-- The method `DecodeAndParse` never writes the headers, `Req` or `Err`. -/
theorem DecodeAndParse_frame (env : Env) (s : Response) (r : Ret (Option Error))
    (hr : DecodeAndParse env s = some r) :
    r.s.Response = s.Response ∧ r.s.Req = s.Req ∧ r.s.Err = s.Err := by
  by_cases hErr : s.Err = none
  swap
  · simp [DecodeAndParse, hErr] at hr
    subst hr
    simp
  by_cases hBody : s.Body = []
  · simp [DecodeAndParse, hErr, hBody] at hr
    subst hr
    simp
  cases hResp : s.Response with
  | none => simp [DecodeAndParse, hErr, hBody, hResp] at hr
  | some h =>
    by_cases hText : isTextual (lowerContentType env h) = true
    swap
    · simp only [isTextual, lowerContentType] at hText
      simp [DecodeAndParse, hErr, hBody, hResp, hText] at hr
      subst hr
      simp [hErr]
    rw [DecodeAndParse_of_textual env s h hErr hBody hResp hText] at hr
    rcases hrc : resolveCharset env { s with NoDecodeBody := s.Body } (lowerContentType env h)
      with _ | ⟨tr, err | ct⟩
    · simp [hrc] at hr
    · simp only [hrc] at hr
      cases hr
      simp [hResp]
    · simp only [hrc] at hr
      cases hr
      have := decodeBody_frame env { s with NoDecodeBody := s.Body } ct
      exact ⟨this.1.trans hResp, this.2.1, this.2.2.1⟩

/-- C9 (content-type predicates). When the headers are present, `IsHTML` is the test
that the lower-cased Content-Type value contains "/html" and `IsJSON` the test that it
contains "/json"; for an ASCII header value this means that some run of its bytes reads
"/html" (resp. "/json") once its letters are lower-cased. Both depend on the headers
only: they agree on any two responses with the same headers, whatever Body, Text and Err
are, and they are the same before and after any run of `DecodeAndParse`. The value
"text/html; charset=gbk" gives IsHTML true and IsJSON false. -/
theorem content_type_predicates (env : Env) (s : Response) (h : HttpResponse)
    (hResp : s.Response = some h) :
    IsHTML env s = some (Contains (lowerContentType env h) (str "/html")) ∧
    IsJSON env s = some (Contains (lowerContentType env h) (str "/json")) ∧
    ((h.Header.Get (str "Content-Type")).all (fun c => decide (c < 128)) = true →
      (IsHTML env s = some true ↔
        ∃ w, w <:+: h.Header.Get (str "Content-Type") ∧ asciiLower w = str "/html") ∧
      (IsJSON env s = some true ↔
        ∃ w, w <:+: h.Header.Get (str "Content-Type") ∧ asciiLower w = str "/json")) ∧
    (∀ s' : Response, s'.Response = s.Response →
      IsHTML env s' = IsHTML env s ∧ IsJSON env s' = IsJSON env s) ∧
    (∀ r, DecodeAndParse env s = some r →
      IsHTML env r.s = IsHTML env s ∧ IsJSON env r.s = IsJSON env s) ∧
    (h.Header.Get (str "Content-Type") = str "text/html; charset=gbk" →
      IsHTML env s = some true ∧ IsJSON env s = some false) := by
  have hcongr : ∀ s' : Response, s'.Response = s.Response →
      IsHTML env s' = IsHTML env s ∧ IsJSON env s' = IsJSON env s := by
    intro s' hs'
    simp [IsHTML, IsJSON, hs']
  refine ⟨by simp [IsHTML, hResp, lowerContentType], by simp [IsJSON, hResp, lowerContentType],
    ?_, hcongr, ?_, ?_⟩
  · intro hascii
    constructor
    · rw [← Contains_ToLower_ascii env.unicodeLower _ _ hascii]
      simp [IsHTML, hResp]
    · rw [← Contains_ToLower_ascii env.unicodeLower _ _ hascii]
      simp [IsJSON, hResp]
  · intro r hr
    exact hcongr r.s (DecodeAndParse_frame env s r hr).1
  · intro hv
    have hl : ToLower env.unicodeLower (str "text/html; charset=gbk")
        = str "text/html; charset=gbk" := by
      simp only [ToLower]
      rw [if_pos (by decide)]
      decide
    simp only [IsHTML, IsJSON, hResp, hv, hl]
    exact ⟨by decide, by decide⟩

/-- Sample for C9: the header value is matched whatever its letter case. -/
theorem content_type_predicates_witness :
    IsHTML sampleEnv (mkResponse (str "Text/HTML; charset=GBK") (str "hi") []) = some true ∧
    IsJSON sampleEnv (mkResponse (str "Text/HTML; charset=GBK") (str "hi") []) = some false :=
  ⟨(content_type_predicates sampleEnv (mkResponse (str "Text/HTML; charset=GBK") (str "hi") [])
      ⟨[(str "Content-Type", [str "Text/HTML; charset=GBK"])]⟩ rfl).1.trans (by decide),
   (content_type_predicates sampleEnv (mkResponse (str "Text/HTML; charset=GBK") (str "hi") [])
      ⟨[(str "Content-Type", [str "Text/HTML; charset=GBK"])]⟩ rfl).2.1.trans (by decide)⟩

/-- The four ways through lines 83-92: the UTF-8 short-circuit, a failing
`charset.NewReader`, a failing `ioutil.ReadAll`, a successful transcoding. -/
theorem decodeBody_cases (env : Env) (s : Response) (ct : GoString) :
    ((Contains ct (str "utf-8") || Contains ct (str "utf8")) = true ∧
      decodeBody env s ct = ⟨{ s with Text := s.Body }, [], none⟩) ∨
    ((Contains ct (str "utf-8") || Contains ct (str "utf8")) = false ∧
      ∃ e, env.NewReader s.Body ct = some e ∧
        decodeBody env s ct = ⟨s, [.NewReader s.Body ct], some e⟩) ∨
    ((Contains ct (str "utf-8") || Contains ct (str "utf8")) = false ∧
      env.NewReader s.Body ct = none ∧
      ∃ b e, env.ReadAll s.Body ct = (b, some e) ∧
        decodeBody env s ct = ⟨s, [.NewReader s.Body ct, .ReadAll s.Body ct], some e⟩) ∨
    ((Contains ct (str "utf-8") || Contains ct (str "utf8")) = false ∧
      env.NewReader s.Body ct = none ∧
      ∃ b, env.ReadAll s.Body ct = (b, none) ∧
        decodeBody env s ct
          = ⟨{ s with Body := b, Text := b }, [.NewReader s.Body ct, .ReadAll s.Body ct], none⟩) := by
  by_cases hu : (Contains ct (str "utf-8") || Contains ct (str "utf8")) = true
  · exact Or.inl ⟨hu, decodeBody_eq_of_utf8 env s ct hu⟩
  · have hu' : (Contains ct (str "utf-8") || Contains ct (str "utf8")) = false := by
      simpa using hu
    right
    cases hn : env.NewReader s.Body ct with
    | some e =>
      exact Or.inl ⟨hu', e, rfl, by simp [decodeBody, encodeBytes, hu', hn]⟩
    | none =>
      right
      rcases hra : env.ReadAll s.Body ct with ⟨b, _ | e⟩
      · exact Or.inr ⟨hu', rfl, b, rfl, by simp [decodeBody, encodeBytes, hu', hn, hra]⟩
      · exact Or.inl ⟨hu', rfl, b, e, rfl, by simp [decodeBody, encodeBytes, hu', hn, hra]⟩

/-- The three ways through lines 72-82. -/
theorem resolveCharset_cases (env : Env) (s : Response) (ct : GoString) (tr : List Event)
    (x : Except Error GoString) (hr : resolveCharset env s ct = some (tr, x)) :
    (namesCharset ct = true ∧ tr = [] ∧ x = .ok ct) ∨
    (namesCharset ct = false ∧ ∃ req, s.Req = some req ∧ req.RespEncode ≠ [] ∧ tr = [] ∧
      x = .ok (ct ++ str "; charset=" ++ req.RespEncode)) ∨
    (namesCharset ct = false ∧ ∃ req, s.Req = some req ∧ req.RespEncode = [] ∧
      tr = [.DetectBest s.Body] ∧
      ((∃ err, env.DetectBest s.Body = .error err ∧ x = .error err) ∨
       (∃ cs, env.DetectBest s.Body = .ok cs ∧ x = .ok (ct ++ str "; charset=" ++ cs)))) := by
  unfold resolveCharset at hr
  by_cases hc : Contains ct (str "charset") = true
  · simp [hc] at hr
    obtain ⟨rfl, rfl⟩ := hr
    exact Or.inl ⟨hc, rfl, rfl⟩
  · have hc' : namesCharset ct = false := by simpa [namesCharset] using hc
    right
    cases hReq : s.Req with
    | none => simp [hc, hReq] at hr
    | some req =>
      by_cases hEnc : req.RespEncode = []
      · right
        cases hd : env.DetectBest s.Body with
        | error err =>
          simp [hc, hReq, hEnc, hd] at hr
          obtain ⟨rfl, rfl⟩ := hr
          exact ⟨hc', req, rfl, hEnc, rfl, Or.inl ⟨err, rfl, rfl⟩⟩
        | ok cs =>
          simp [hc, hReq, hEnc, hd] at hr
          obtain ⟨rfl, rfl⟩ := hr
          exact ⟨hc', req, rfl, hEnc, rfl, Or.inr ⟨cs, rfl, by simp⟩⟩
      · simp [hc, hReq, hEnc] at hr
        obtain ⟨rfl, rfl⟩ := hr
        exact Or.inl ⟨hc', req, rfl, hEnc, rfl, by simp⟩

/-- Lines 72-82 read of the receiver only `Req` and Body. -/
theorem resolveCharset_congr (env : Env) (s s' : Response) (ct : GoString)
    (hReq : s'.Req = s.Req) (hBody : s'.Body = s.Body) :
    resolveCharset env s' ct = resolveCharset env s ct := by
  simp [resolveCharset, hReq, hBody]

/-- The five ways through `DecodeAndParse` that return. -/
theorem DecodeAndParse_cases (env : Env) (s : Response) (r : Ret (Option Error))
    (hr : DecodeAndParse env s = some r) :
    (s.Err ≠ none ∧ r = ⟨s, [], s.Err⟩) ∨
    (s.Err = none ∧ s.Body = [] ∧ r = ⟨s, [], none⟩) ∨
    (s.Err = none ∧ s.Body ≠ [] ∧ ∃ h, s.Response = some h ∧
      isTextual (lowerContentType env h) = false ∧
      r = ⟨{ s with NoDecodeBody := s.Body }, [], none⟩) ∨
    (s.Err = none ∧ s.Body ≠ [] ∧ ∃ h, s.Response = some h ∧
      isTextual (lowerContentType env h) = true ∧
      ∃ tr err, resolveCharset env { s with NoDecodeBody := s.Body } (lowerContentType env h)
          = some (tr, .error err) ∧
        r = ⟨{ s with NoDecodeBody := s.Body }, tr, some err⟩) ∨
    (s.Err = none ∧ s.Body ≠ [] ∧ ∃ h, s.Response = some h ∧
      isTextual (lowerContentType env h) = true ∧
      ∃ tr ct, resolveCharset env { s with NoDecodeBody := s.Body } (lowerContentType env h)
          = some (tr, .ok ct) ∧
        r = ⟨(decodeBody env { s with NoDecodeBody := s.Body } ct).s,
             tr ++ (decodeBody env { s with NoDecodeBody := s.Body } ct).trace,
             (decodeBody env { s with NoDecodeBody := s.Body } ct).val⟩) := by
  by_cases hErr : s.Err = none
  swap
  · simp [DecodeAndParse, hErr] at hr
    exact Or.inl ⟨hErr, hr.symm⟩
  right
  by_cases hBody : s.Body = []
  · simp [DecodeAndParse, hErr, hBody] at hr
    exact Or.inl ⟨hErr, hBody, by rw [← hr]⟩
  right
  rcases hResp : s.Response with _ | h
  · simp [DecodeAndParse, hErr, hBody, hResp] at hr
  by_cases hText : isTextual (lowerContentType env h) = true
  swap
  · have hText' : isTextual (lowerContentType env h) = false := by simpa using hText
    have := DecodeAndParse_of_non_textual env s h hErr hBody hResp hText'
    rw [hr] at this
    exact Or.inl ⟨hErr, hBody, h, rfl, hText', by rw [hResp] at this; exact Option.some.inj this⟩
  right
  rw [DecodeAndParse_of_textual env s h hErr hBody hResp hText] at hr
  rcases hrc : resolveCharset env { s with NoDecodeBody := s.Body } (lowerContentType env h)
    with _ | ⟨tr, err | ct⟩
  · simp [hrc] at hr
  · simp only [hrc] at hr
    refine Or.inl ⟨hErr, hBody, h, rfl, hText, tr, err, ?_, ?_⟩
    · rw [← hResp]; exact hrc
    · rw [← hResp]; exact (Option.some.inj hr).symm
  · simp only [hrc] at hr
    refine Or.inr ⟨hErr, hBody, h, rfl, hText, tr, ct, ?_, ?_⟩
    · rw [← hResp]; exact hrc
    · rw [← hResp]; exact (Option.some.inj hr).symm

/-- C5, counterexample. A textual response without charset and override whose Body is
the single byte 0x80, in which the detector recognises nothing: `DecodeAndParse` returns
the detector's error, yet the stored error stays nil, so `Txt` returns ("", nil) and
`JSON` a nil error. -/
theorem decode_failure_not_recorded :
    (DecodeAndParse sampleEnv (mkResponse (str "text/plain") [128] [])).map
        (fun r => (r.val, r.trace, r.s.Err, Txt r.s))
      = some (some NotDetectedError, [.DetectBest [128]], none, ([], none)) ∧
    (DecodeAndParse sampleEnv (mkResponse (str "text/plain") [128] [])).map
        (fun r => (JSON sampleEnv r.s).2.2)
      = some none :=
  ⟨by decide, by decide⟩

/-- C5, amended. When `DecodeAndParse` fails on a response without stored error, the
error `e` it returns is the one the detector or the transcoder gave, and it is returned
to the caller only: the receiver is as before but for NoDecodeBody (set to Body), so Err
stays nil and Body and Text are unchanged, and `Txt` and `JSON` called afterwards return
the unchanged Text (resp. its parse) with a nil error. -/
theorem decode_failure_returned_to_caller (env : Env) (s : Response) (r : Ret (Option Error))
    (e : Error) (hErr : s.Err = none) (hr : DecodeAndParse env s = some r)
    (he : r.val = some e) :
    (env.DetectBest s.Body = .error e ∨
      ∃ ct, env.NewReader s.Body ct = some e ∨
        (env.NewReader s.Body ct = none ∧ (env.ReadAll s.Body ct).2 = some e)) ∧
    r.s = { s with NoDecodeBody := s.Body } ∧
    r.s.Err = none ∧ r.s.Body = s.Body ∧ r.s.Text = s.Text ∧
    Txt r.s = (s.Text, none) ∧
    JSON env r.s = ([.gjsonParse s.Text], (env.gjsonParse s.Text, none)) := by
  rcases DecodeAndParse_cases env s r hr with
    ⟨h0, _⟩ | ⟨_, _, rfl⟩ | ⟨_, _, h, _, _, rfl⟩ | ⟨_, _, h, _, _, tr, err, hrc, rfl⟩ |
    ⟨_, _, h, _, _, tr, ct, hrc, rfl⟩
  · exact absurd hErr h0
  · simp at he
  · simp at he
  · simp only [Option.some.injEq] at he
    subst he
    rcases resolveCharset_cases _ _ _ _ _ hrc with ⟨_, _, hx⟩ | ⟨_, _, _, _, _, hx⟩ |
      ⟨_, _, _, _, _, ⟨err', hd, hx⟩ | ⟨_, _, hx⟩⟩
    · cases hx
    · cases hx
    · cases hx
      exact ⟨Or.inl hd, by simp [Txt, JSON, hErr]⟩
    · cases hx
  · simp only at he
    rcases decodeBody_cases env { s with NoDecodeBody := s.Body } ct with
      ⟨_, hd⟩ | ⟨_, e', hn, hd⟩ | ⟨_, hn, b, e', hra, hd⟩ | ⟨_, _, b, _, hd⟩
    · rw [hd] at he; simp at he
    · rw [hd] at he
      simp only [Option.some.injEq] at he
      subst he
      refine ⟨Or.inr ⟨ct, Or.inl hn⟩, ?_⟩
      simp only [hd]
      simp [Txt, JSON, hErr]
    · rw [hd] at he
      simp only [Option.some.injEq] at he
      subst he
      refine ⟨Or.inr ⟨ct, Or.inr ⟨hn, ?_⟩⟩, ?_⟩
      · have : env.ReadAll s.Body ct = (b, some e') := hra
        rw [this]
      · simp only [hd]
        simp [Txt, JSON, hErr]
    · rw [hd] at he; simp at he

/-- Sample for C5: the detector recognises nothing in the body 0x80 of a text/plain response;
its error is returned, Err stays nil and `Txt` afterwards returns ("", nil). -/
theorem decode_failure_returned_to_caller_witness :
    DecodeAndParse sampleEnv (mkResponse (str "text/plain") [128] [])
      = some ⟨{ mkResponse (str "text/plain") [128] [] with NoDecodeBody := [128] },
          [.DetectBest [128]], some NotDetectedError⟩ ∧
    sampleEnv.DetectBest [128] = .error NotDetectedError ∧
    Txt { mkResponse (str "text/plain") [128] [] with NoDecodeBody := [128] } = ([], none) :=
  ⟨rfl, rfl,
    (decode_failure_returned_to_caller sampleEnv (mkResponse (str "text/plain") [128] [])
      ⟨{ mkResponse (str "text/plain") [128] [] with NoDecodeBody := [128] },
        [.DetectBest [128]], some NotDetectedError⟩
      NotDetectedError rfl rfl rfl).2.2.2.2.2.1⟩

/-- C7, counterexample. A JSON body in ISO-8859-1: the first `DecodeAndParse` succeeds
and transcodes 22 E9 22 to 22 C3 A9 22; the second call hands these UTF-8 bytes to the
transcoder again, turns Body and Text into 22 C3 83 C2 A9 22 and overwrites NoDecodeBody
with the output of the first call. -/
theorem second_decode_transcodes_again :
    (DecodeAndParse sampleEnv latin1Response).map
        (fun r => (r.val, r.s.Body, r.s.NoDecodeBody, r.s.Text))
      = some (none, [34, 195, 169, 34], [34, 233, 34], [34, 195, 169, 34]) ∧
    ((DecodeAndParse sampleEnv latin1Response).bind
        (fun r => DecodeAndParse sampleEnv r.s)).map (fun r => (r.val, r.trace))
      = some (none,
          [.NewReader [34, 195, 169, 34] (str "application/json; charset=iso-8859-1"),
           .ReadAll [34, 195, 169, 34] (str "application/json; charset=iso-8859-1")]) ∧
    ((DecodeAndParse sampleEnv latin1Response).bind
        (fun r => DecodeAndParse sampleEnv r.s)).map
        (fun r => (r.s.Body, r.s.NoDecodeBody, r.s.Text))
      = some ([34, 195, 131, 194, 169, 34], [34, 195, 169, 34],
          [34, 195, 131, 194, 169, 34]) :=
  ⟨by decide, by decide, by decide⟩

/-- C7, amended. If a first `DecodeAndParse` succeeds without having called the detector
or the transcoder (no library call at all), a second call returns nil, makes no library
call either and leaves every field as the first call left it. -/
theorem second_decode_noop_after_quiet_success (env : Env) (s : Response)
    (r : Ret (Option Error)) (hr : DecodeAndParse env s = some r)
    (hv : r.val = none) (ht : r.trace = []) :
    DecodeAndParse env r.s = some ⟨r.s, [], none⟩ := by
  rcases DecodeAndParse_cases env s r hr with
    ⟨h0, rfl⟩ | ⟨hErr, hBody, rfl⟩ | ⟨hErr, hBody, h, hResp, hText, rfl⟩ |
    ⟨_, _, h, _, _, tr, err, _, rfl⟩ | ⟨hErr, hBody, h, hResp, hText, tr, ct, hrc, rfl⟩
  · exact absurd hv h0
  · simp [DecodeAndParse, hErr, hBody]
  · exact DecodeAndParse_of_non_textual env { s with NoDecodeBody := s.Body } h hErr hBody hResp
      hText
  · simp at hv
  · simp only [List.append_eq_nil] at ht
    obtain ⟨ht1, ht2⟩ := ht
    subst ht1
    rcases decodeBody_cases env { s with NoDecodeBody := s.Body } ct with
      ⟨hu, hd⟩ | ⟨_, e', _, hd⟩ | ⟨_, _, b, e', _, hd⟩ | ⟨_, _, b, _, hd⟩
    · have key : DecodeAndParse env { s with NoDecodeBody := s.Body, Text := s.Body }
          = some ⟨{ s with NoDecodeBody := s.Body, Text := s.Body }, [], none⟩ := by
        rw [DecodeAndParse_of_textual env { s with NoDecodeBody := s.Body, Text := s.Body } h
          hErr hBody hResp hText]
        have hcongr := resolveCharset_congr env { s with NoDecodeBody := s.Body }
          { s with NoDecodeBody := s.Body, Text := s.Body } (lowerContentType env h) rfl rfl
        have hrc2 : resolveCharset env { s with NoDecodeBody := s.Body, Text := s.Body }
            (lowerContentType env h) = some ([], .ok ct) := hcongr.trans hrc
        simp only [hrc2]
        rw [decodeBody_eq_of_utf8 env _ ct hu]
        simp
      rw [hd]
      exact key
    · rw [hd] at ht2; simp at ht2
    · rw [hd] at ht2; simp at ht2
    · rw [hd] at ht2; simp at ht2

/-- Sample for C7: a UTF-8 response after its first decode is left alone by the second. -/
theorem second_decode_noop_after_quiet_success_witness :
    DecodeAndParse sampleEnv
        { mkResponse (str "text/plain; charset=utf-8") (str "hi") [] with
          NoDecodeBody := str "hi", Text := str "hi" }
      = some ⟨{ mkResponse (str "text/plain; charset=utf-8") (str "hi") [] with
                NoDecodeBody := str "hi", Text := str "hi" }, [], none⟩ :=
  second_decode_noop_after_quiet_success sampleEnv
    (mkResponse (str "text/plain; charset=utf-8") (str "hi") [])
    ⟨{ mkResponse (str "text/plain; charset=utf-8") (str "hi") [] with
        NoDecodeBody := str "hi", Text := str "hi" }, [], none⟩
    rfl rfl rfl

/-- C10, counterexample. After the successful `DecodeAndParse` of the ISO-8859-1 sample,
NoDecodeBody holds the bytes as received (22 E9 22), but `BindJSON` and `BindXML` hand
the transcoded Body (22 C3 A9 22) to the deserializer. -/
theorem bind_reads_transcoded_body :
    (DecodeAndParse sampleEnv latin1Response).map
        (fun r => (r.val, r.s.NoDecodeBody, (BindJSON sampleEnv r.s []).1,
          (BindXML sampleEnv r.s []).1))
      = some (none, [34, 233, 34], [.jsonUnmarshal [34, 195, 169, 34]],
          [.xmlUnmarshal [34, 195, 169, 34]]) := by
  decide

/-- C10, amended. With no stored error, `BindJSON` and `BindXML` hand the current Body
to the deserializer and return its target and error as they come. After a successful
`DecodeAndParse` that Body is the body as received when the transcoder did not run, and
the transcoder's output when it ran (the received bytes are then in NoDecodeBody only,
which the bind methods do not read). -/
theorem bind_hands_over_current_body (env : Env) (s : Response) (i : env.Target)
    (hErr : s.Err = none) :
    BindJSON env s i = ([.jsonUnmarshal s.Body], env.jsonUnmarshal s.Body i) ∧
    BindXML env s i = ([.xmlUnmarshal s.Body], env.xmlUnmarshal s.Body i) ∧
    ∀ (s0 : Response) (r : Ret (Option Error)),
      DecodeAndParse env s0 = some r → r.val = none → r.s = s →
      (usesTranscoder r.trace = false ∧ s.Body = s0.Body) ∨
      (∃ ct, .ReadAll s0.Body ct ∈ r.trace ∧ env.ReadAll s0.Body ct = (s.Body, none) ∧
        s.NoDecodeBody = s0.Body) := by
  refine ⟨by simp [BindJSON, hErr], by simp [BindXML, hErr], ?_⟩
  intro s0 r hr hv hs
  subst hs
  rcases DecodeAndParse_cases env s0 r hr with
    ⟨h0, rfl⟩ | ⟨_, _, rfl⟩ | ⟨_, _, h, _, _, rfl⟩ |
    ⟨_, _, h, _, _, tr, err, _, rfl⟩ | ⟨_, _, h, _, _, tr, ct, hrc, rfl⟩
  · exact absurd hv h0
  · exact Or.inl ⟨rfl, rfl⟩
  · exact Or.inl ⟨rfl, rfl⟩
  · simp at hv
  · have htr : usesTranscoder tr = false := by
      rcases resolveCharset_trace _ _ _ _ _ hrc with h0 | ⟨h1, _⟩
      · rw [h0]; rfl
      · rw [h1]; rfl
    rcases decodeBody_cases env { s0 with NoDecodeBody := s0.Body } ct with
      ⟨_, hd⟩ | ⟨_, e', _, hd⟩ | ⟨_, _, b, e', _, hd⟩ | ⟨_, _, b, hra, hd⟩
    · left
      simp only [hd]
      simp only [usesTranscoder, List.append_nil] at htr ⊢
      exact ⟨htr, trivial⟩
    · simp only [hd] at hv; simp at hv
    · simp only [hd] at hv; simp at hv
    · right
      simp only [hd]
      exact ⟨ct, by simp, hra, trivial⟩

/-- Sample for C10: after transcoding, `BindJSON` hands over the UTF-8 bytes. -/
theorem bind_hands_over_current_body_witness :
    BindJSON sampleEnv latin1Decoded []
      = ([.jsonUnmarshal [34, 195, 169, 34]], ([34, 195, 169, 34], none)) :=
  (bind_hands_over_current_body sampleEnv latin1Decoded [] rfl).1

/-- C3, failing input. The override "UTF-8" (and likewise the detector's answer "UTF-8")
is UTF-8 up to letter case, yet it is appended to the content type as it is and the test
of line 83 looks for the lower-case spellings only: the transcoder is called. -/
theorem uppercase_utf8_is_transcoded :
    asciiLower (str "UTF-8") = str "utf-8" ∧
    (DecodeAndParse sampleEnv (mkResponse (str "text/plain") (str "hi") (str "UTF-8"))).map
        (fun r => (r.val, r.trace))
      = some (none, [.NewReader (str "hi") (str "text/plain; charset=UTF-8"),
          .ReadAll (str "hi") (str "text/plain; charset=UTF-8")]) ∧
    (DecodeAndParse sampleEnv (mkResponse (str "text/plain") [34, 195, 169, 34] [])).map
        (fun r => (r.val, r.trace))
      = some (none, [.DetectBest [34, 195, 169, 34],
          .NewReader [34, 195, 169, 34] (str "text/plain; charset=UTF-8"),
          .ReadAll [34, 195, 169, 34] (str "text/plain; charset=UTF-8")]) :=
  ⟨by decide, by decide, by decide⟩

end Greq
